import Mathlib

set_option maxRecDepth 4000

/-!
Verification of the pymeta runtime engine (src/pymeta/runtime.py) against its
specification.  The engine is shallowly embedded: Python values that occur as
parser tokens, rule results and expected-item payloads are modelled by `Val`;
the engine's mutable state (the current input cursor, the per-position memo
tables living on `InputStream` objects, and the `LeftRecursion.detected`
cells) is an explicit `EngineState` threaded through every operation; a Python
exception is a `PErr` carried together with the state at the moment it is
raised (Python exceptions do not roll state back).  Rule procedures — which in
Python are arbitrary callables mutating `self` — are modelled as functions
`EngineState → PRes`.  Divergence of a Python loop is modelled by fuel: the
distinguished, uncatchable error `PErr.fuelExhausted` is returned when the
fuel runs out, so "the code loops forever" is rendered as "for every fuel the
result is `fuelExhausted`".
-/

/-- Python value universe for tokens, rule results and error payloads: a
`character` (the `str` subclass whose `__iter__` raises, runtime.py lines
118-139), a plain string, a list, or a boolean (`_not` returns `True`). -/
inductive Val where
  | ch (c : Char)
  | str (s : String)
  | list (vs : List Val)
  | pybool (b : Bool)

mutual

/-- Python `==` on modelled values.  `character` is a `str` subclass, so a
one-character string and the corresponding `character` compare equal, exactly
as in Python (`'a' == character('a')` is `True`). -/
def Val.beq : Val → Val → Bool
  | .ch a, .ch b => a == b
  | .ch a, .str s => s == String.singleton a
  | .str s, .ch a => s == String.singleton a
  | .str a, .str b => a == b
  | .list a, .list b => Val.beqList a b
  | .pybool a, .pybool b => a == b
  | _, _ => false

/-- Elementwise Python `==` on lists. -/
def Val.beqList : List Val → List Val → Bool
  | [], [] => true
  | a :: as, b :: bs => Val.beq a b && Val.beqList as bs
  | _, _ => false

end

/-- A single expected-item: either an `("expected", typ, val)` triple produced
by `expected()` (runtime.py lines 84-90) or a `("message", text)` pair
produced by `eof()` (lines 93-97) and by `_xor`'s ambiguity error. -/
inductive ErrItem where
  | expected (typ : Option String) (val : Option Val)
  | message (msg : String)

/-- Python tuple equality on expected-items (used by the `set` in
`joinErrors`). -/
def ErrItem.beq : ErrItem → ErrItem → Bool
  | .expected t v, .expected t' v' =>
      t == t' && (match v, v' with
                  | none, none => true
                  | some a, some b => Val.beq a b
                  | _, _ => false)
  | .message a, .message b => a == b
  | _, _ => false

/-- The `(position, error)` payload shared by `_MaybeParseError.args` and the
`[position, items]` pairs that rules return as their second component.  Both
fields are `None`-able in Python (`_MaybeParseError(None, None)` is the
left-recursion base-case failure, `nullError()` is `(position, None)`). -/
structure Fail where
  pos : Option Nat
  items : Option (List ErrItem)

/-- The `("message", "end of input")` item built by `eof()`. -/
def eofItem : ErrItem := .message "end of input"

/-- Python 2 `>` on positions: `None` sorts below every integer. -/
def posGtP : Option Nat → Option Nat → Bool
  | none, _ => false
  | some _, none => true
  | some a, some b => b < a

/-- Python truthiness of the `error[1]` component: `None` and the empty list
are falsy. -/
def itemsTruthy : Option (List ErrItem) → Bool
  | none => false
  | some [] => false
  | some (_ :: _) => true

/-- OMetaBase.considerError (runtime.py lines 284-288): the stored current
error is replaced only when the incoming failure has a truthy expected-item
component and a strictly greater position. -/
def considerError (current : Fail) (error : Fail) : Fail :=
  if itemsTruthy error.items && posGtP error.pos current.pos then error else current

/-- Maximum of two positions under the Python 2 order used by
`errors.sort(reverse=True, key=itemgetter(0))`. -/
def posMaxP (a b : Option Nat) : Option Nat :=
  if posGtP b a then b else a

/-- The maximal position among a list of failures (`errors[0][0]` after the
descending sort in `joinErrors`). -/
def maxPos (l : List Fail) : Option Nat :=
  l.foldl (fun acc f => posMaxP acc f.pos) none

/-- `results.add(item)`: add an item to the accumulated set unless an equal
one is already present.  (Python iterates the resulting `set` in hash order;
the model fixes first-insertion order — the set's contents are identical.) -/
def addItem (acc : List ErrItem) (i : ErrItem) : List ErrItem :=
  if acc.any (fun j => ErrItem.beq j i) then acc else acc ++ [i]

/-- joinErrors (runtime.py lines 99-115): keep the maximal position and the
union of the expected-item lists of every failure at that position (`None`
item lists contribute nothing). -/
def joinErrors (errors : List Fail) : Fail :=
  let mp := maxPos errors
  ⟨mp, some (errors.foldl
      (fun acc f =>
        if f.pos = mp then
          match f.items with
          | some l => l.foldl addItem acc
          | none => acc
        else acc) [])⟩

/-- An `InputStream` value: position-addressed view over a shared backing
sequence.  `sid` identifies the backing chain (Python object identity of the
`tl`-linked chain created by one `fromIterable` call): the `tl` cache makes
all cursors of one chain at equal positions the same object, so the identity
test `self.input == sentinel` in `_apply` is `(sid, pos)` equality. -/
structure InputStream where
  sid : Nat
  data : List Val
  pos : Nat

/-- `self.data[self.position]`, or `none` at end of input. -/
def InputStream.headVal (s : InputStream) : Option Val :=
  s.data.get? s.pos

/-- InputStream.tail (runtime.py lines 177-180): same chain, next position. -/
def InputStream.tail (s : InputStream) : InputStream :=
  { s with pos := s.pos + 1 }

/-- A memo record: either the `LeftRecursion` marker (holding the address of
its mutable `detected` cell) or a stored `[result, input]` success. -/
inductive MemoEntry where
  | lr (cell : Nat)
  | done (v : Val) (e : Fail) (endInput : InputStream)

/-- The whole mutable engine state: the current input, every stream's memo
table (keyed by chain id, position and rule name; a stored `none` models
`setMemo(name, None)` in `superApply`), the heap of `LeftRecursion.detected`
cells, and allocation counters for fresh cells and fresh stream chains. -/
structure EngineState where
  input : InputStream
  memo : List ((Nat × Nat × String) × Option MemoEntry)
  cells : List (Nat × Bool)
  nextCell : Nat
  nextSid : Nat

/-- A Python exception: a `_MaybeParseError` (the only kind the combinators
catch), a `NameError` from `apply`/`superApply`, the `IndexError` that
`joinErrors` raises on an empty error list, or the model's fuel-exhaustion
marker standing for non-termination. -/
inductive PErr where
  | parse (f : Fail)
  | name (msg : String)
  | indexError
  | fuelExhausted

/-- Outcome of running a rule or combinator: a `(value, error)` success pair
or a raised exception, in both cases together with the state at that moment
(Python exceptions do not undo mutations). -/
inductive PRes where
  | ok (v : Val) (e : Fail) (st : EngineState)
  | err (pe : PErr) (st : EngineState)

/-- A rule procedure (a Python callable closed over `self`). -/
abbrev Rule : Type := EngineState → PRes

/-- The state component of an outcome. -/
def PRes.state : PRes → EngineState
  | .ok _ _ st => st
  | .err _ st => st

/-- Whether an outcome is the model's non-termination marker. -/
def PRes.isFuelOut : PRes → Bool
  | .err .fuelExhausted _ => true
  | _ => false

/-- Whether an outcome is a raised `_MaybeParseError`. -/
def PRes.isParseErr : PRes → Bool
  | .err (.parse _) _ => true
  | _ => false

/-- Association-list lookup in the memo table. -/
def findMemo : List ((Nat × Nat × String) × Option MemoEntry) → (Nat × Nat × String) →
    Option (Option MemoEntry)
  | [], _ => none
  | (k, v) :: rest, key => if k = key then some v else findMemo rest key

/-- InputStream.getMemo (runtime.py lines 185-190): `self.memo.get(name,
None)`; an absent key and a stored `None` are indistinguishable to callers. -/
def getMemoSt (st : EngineState) (s : InputStream) (name : String) : Option MemoEntry :=
  match findMemo st.memo (s.sid, s.pos, name) with
  | some v => v
  | none => none

/-- InputStream.setMemo (runtime.py lines 193-201) on the stream `s`. -/
def setMemoSt (st : EngineState) (s : InputStream) (name : String) (v : Option MemoEntry) :
    EngineState :=
  { st with memo := ((s.sid, s.pos, name), v) :: st.memo }

/-- Read a `LeftRecursion.detected` cell (fresh cells start `False`). -/
def readCell : List (Nat × Bool) → Nat → Bool
  | [], _ => false
  | (i, b) :: rest, c => if i = c then b else readCell rest c

/-- Mutate a `LeftRecursion.detected` cell. -/
def writeCellSt (st : EngineState) (c : Nat) (b : Bool) : EngineState :=
  { st with cells := (c, b) :: st.cells }

/-- OMetaBase.rule_anything (runtime.py lines 367-373): consume one token and
return it with the `[position, None]` pair from `head()`; raise `EOFError`
(a `_MaybeParseError` carrying `eof()`) when no token remains. -/
def rule_anything : Rule := fun st =>
  match st.input.headVal with
  | none => .err (.parse ⟨some st.input.pos, some [eofItem]⟩) st
  | some v => .ok v ⟨some st.input.pos, none⟩ { st with input := st.input.tail }

/-- OMetaBase.exactly (runtime.py lines 375-390): consume one token and keep
it iff it equals the specimen; on mismatch restore the saved input and raise
`expected(None, wanted)` at the token's position. -/
def exactly (wanted : Val) : Rule := fun st =>
  match st.input.headVal with
  | none => .err (.parse ⟨some st.input.pos, some [eofItem]⟩) st
  | some v =>
      if Val.beq wanted v then
        .ok v ⟨some st.input.pos, none⟩ { st with input := st.input.tail }
      else
        .err (.parse ⟨some st.input.pos, some [.expected none (some wanted)]⟩) st

/-- The loop of OMetaBase.many (runtime.py lines 392-411): call `fn` until it
raises a `_MaybeParseError`, collecting values; restore the input saved just
before the failing attempt and return the collected list together with the
failure's payload.  Any other exception propagates.  `fuel` bounds the number
of iterations (Python loops forever when `fn` keeps succeeding). -/
def manyAux : Nat → Rule → List Val → EngineState → PRes
  | 0, _, _, st => .err .fuelExhausted st
  | fuel + 1, fn, ans, st =>
      match fn st with
      | .ok v _ st' => manyAux fuel fn (ans ++ [v]) st'
      | .err (.parse pf) st' => .ok (.list ans) pf { st' with input := st.input }
      | .err e st' => .err e st'

/-- OMetaBase.many with no initial values (the `*initial` argument is only
used by the compiled `+` operator and plays no part in the claims). -/
def many (fuel : Nat) (fn : Rule) : Rule := fun st =>
  manyAux fuel fn [] st

/-- The loop of OMetaBase._or (runtime.py lines 413-430) with its accumulated
`errors` list: try each callable, rewinding the input saved just before it on
a `_MaybeParseError`; on the first success return its value paired with
`joinErrors` of every error seen so far (the success's own error included);
when the list is exhausted raise the join — which in Python is an
`IndexError` when no branch ever ran (`joinErrors([])` indexes an empty
list). -/
def orAux : List Rule → List Fail → EngineState → PRes
  | [], errors, st =>
      if errors.isEmpty then .err .indexError st
      else .err (.parse (joinErrors errors)) st
  | f :: rest, errors, st =>
      match f st with
      | .ok v e st' => .ok v (joinErrors (errors ++ [e])) st'
      | .err (.parse pf) st' => orAux rest (errors ++ [pf]) { st' with input := st.input }
      | .err e st' => .err e st'

/-- OMetaBase._or. -/
def _or (fns : List Rule) : Rule := fun st =>
  orAux fns [] st

/-- Python `str()` / `repr()` of modelled values as used by `%s` formatting
(`repr` is modelled without escape handling, which is exact for the
quote-free strings appearing in this development). -/
def pyQuote : String := String.singleton (Char.ofNat 39)

mutual

/-- Python `str()` of a value. -/
def pyStr : Val → String
  | .ch c => String.singleton c
  | .str s => s
  | .list vs => "[" ++ String.intercalate ", " (pyReprList vs) ++ "]"
  | .pybool b => if b then "True" else "False"

/-- Python `repr()` of a value. -/
def pyRepr : Val → String
  | .ch c => pyQuote ++ String.singleton c ++ pyQuote
  | .str s => pyQuote ++ s ++ pyQuote
  | .list vs => "[" ++ String.intercalate ", " (pyReprList vs) ++ "]"
  | .pybool b => if b then "True" else "False"

/-- `repr` of each element of a list. -/
def pyReprList : List Val → List String
  | [] => []
  | v :: vs => pyRepr v :: pyReprList vs

end

/-- The loop of OMetaBase._xor (runtime.py lines 432-461): every attempt
starts from the entry input `m`; a `_MaybeParseError` is collected; a success
while a previous success is held raises the ambiguity error at `m.position`
naming both values, with the input restored to `m`; after the scan, zero
successes raise the join of the collected errors (an `IndexError` when there
were no branches) and one success returns its value and end input. -/
def xorAux : List Rule → InputStream → List Fail → Option (Val × InputStream) → EngineState → PRes
  | [], m, errors, acc, st =>
      match acc with
      | none =>
          if errors.isEmpty then .err .indexError { st with input := m }
          else .err (.parse (joinErrors errors)) { st with input := m }
      | some (result, ri) => .ok result (joinErrors errors) { st with input := ri }
  | f :: rest, m, errors, acc, st =>
      match f { st with input := m } with
      | .err (.parse pf) st' => xorAux rest m (errors ++ [pf]) acc st'
      | .err e st' => .err e st'
      | .ok ret err st' =>
          match acc with
          | some (result, _) =>
              .err (.parse ⟨some m.pos,
                some [.message ("xor rule matched " ++ pyStr result ++ " and " ++ pyStr ret)]⟩)
                { st' with input := m }
          | none => xorAux rest m (errors ++ [err]) (some (ret, st'.input)) st'

/-- OMetaBase._xor. -/
def _xor (fns : List Rule) : Rule := fun st =>
  xorAux fns st.input [] none st

/-- OMetaBase._not (runtime.py lines 464-477): on a `_MaybeParseError` from
`fn`, restore the input and succeed with `True`; on success raise the null
error of the input `fn` left behind (the input is NOT restored on this
path). -/
def _not (fn : Rule) : Rule := fun st =>
  match fn st with
  | .err (.parse _) st' => .ok (.pybool true) ⟨some st.input.pos, none⟩ { st' with input := st.input }
  | .err e st' => .err e st'
  | .ok _ _ st' => .err (.parse ⟨some st'.input.pos, none⟩) st'

/-- OMetaBase.end / rule_end (runtime.py lines 528-534): negation of
`rule_anything` (`end` is a Lean keyword, so the `rule_end` alias names it). -/
def rule_end : Rule := fun st =>
  _not rule_anything st

/-- OMetaBase.lookahead (runtime.py lines 536-548): run `f` and restore the
entry input afterwards no matter what (the `finally` clause), propagating
`f`'s outcome otherwise unchanged. -/
def lookahead (f : Rule) : Rule := fun st =>
  match f st with
  | .ok v e st' => .ok v e { st' with input := st.input }
  | .err e st' => .err e { st' with input := st.input }

/-- InputStream.fromIterable (runtime.py lines 146-160) restricted to what
`listpattern` feeds it: a string becomes its `character`s, a list becomes its
elements, and a `character` raises `TypeError` (its `__iter__` refuses,
preventing one character from matching a sequence pattern); a boolean is not
iterable either. -/
def fromIterableVal : Val → Option (List Val)
  | .ch _ => none
  | .str s => some (s.data.map .ch)
  | .list vs => some vs
  | .pybool _ => none

/-- The `self.input = InputStream.fromIterable(v)` assignment in
`listpattern`: a fresh stream chain over the elements, starting at 0. -/
def subSt (st : EngineState) (elems : List Val) : EngineState :=
  { st with input := ⟨st.nextSid, elems, 0⟩, nextSid := st.nextSid + 1 }

/-- OMetaBase.listpattern (runtime.py lines 509-525): consume one token `v`,
then parse `v`'s elements with `expr` on a fresh `InputStream` followed by an
end-of-stream check, finally restoring the outer input (the one AFTER `v`).
When `fromIterable` raises `TypeError` the input keeps pointing past `v` (the
assignment never happened); a failure of `expr` or of the end check
propagates with the input still inside the sub-stream — no path restores the
entry input. -/
def listpattern (expr : Rule) : Rule := fun st =>
  match rule_anything st with
  | .err e st' => .err e st'
  | .ok v e st1 =>
      match fromIterableVal v with
      | none => .err (.parse ⟨e.pos, some [.expected (some "an iterable") none]⟩) st1
      | some elems =>
          match expr (subSt st1 elems) with
          | .err e' st3 => .err e' st3
          | .ok _ _ st3 =>
              match rule_end st3 with
              | .err e' st4 => .err e' st4
              | .ok _ _ st4 => .ok v e { st4 with input := st1.input }

/-- A compiled two-element sequence: run the parts in order, the second from
where the first stopped; the sequence's result is the last part's result and
the first failure aborts the whole sequence. -/
def seq2 (r1 r2 : Rule) : Rule := fun st =>
  match r1 st with
  | .ok _ _ st' => r2 st'
  | .err e st' => .err e st'

/-- The growing loop of OMetaBase._apply (runtime.py lines 345-358): re-run
the rule from `oldPos`; a `_MaybeParseError` stops the loop; a success whose
end input is identical to `sentinel` (the seed's end, fixed for the whole
loop) stops it without storing; any other success overwrites the memo entry
at `oldPos` and iterates.  On exit the input is set to the end stored in the
current memo record (`memoVal`/`memoErr`/`memoEnd` track the Python local
`memoRec`).  `fuel` bounds the iterations. -/
def growLoop : Nat → Rule → String → InputStream → InputStream → Val → Fail → InputStream → EngineState → PRes
  | 0, _, _, _, _, _, _, _, st => .err .fuelExhausted st
  | fuel + 1, rule, name, oldPos, sentinel, memoVal, memoErr, memoEnd, st =>
      match rule { st with input := oldPos } with
      | .err (.parse _) st' => .ok memoVal memoErr { st' with input := memoEnd }
      | .err e st' => .err e st'
      | .ok v ev st' =>
          if st'.input.sid = sentinel.sid ∧ st'.input.pos = sentinel.pos then
            .ok memoVal memoErr { st' with input := memoEnd }
          else
            growLoop fuel rule name oldPos sentinel v ev st'.input
              (setMemoSt st' oldPos name (some (.done v ev st'.input)))

/-- OMetaBase._apply (runtime.py lines 317-364) for an argument-free
application (the `args` branch builds `ArgInput` frames and is not involved
in any claim).  No memo record: install a `LeftRecursion` marker with a fresh
`detected` cell, run the rule (a failure propagates, leaving the marker in
place), store `[result, input]` at the entry position, and — when the cell
was set during the run — enter the growing loop.  A `LeftRecursion` record:
set its cell and raise `_MaybeParseError(None, None)`.  A stored success:
return it with the input moved to its recorded end. -/
def applyRule (fuel : Nat) (rule : Rule) (ruleName : String) (st : EngineState) : PRes :=
  match getMemoSt st st.input ruleName with
  | none =>
      let oldPos := st.input
      let c := st.nextCell
      let st1 := setMemoSt
        { st with nextCell := c + 1, cells := (c, false) :: st.cells } oldPos ruleName
        (some (.lr c))
      match rule st1 with
      | .err e st2 => .err e st2
      | .ok v e st2 =>
          let st3 := setMemoSt st2 oldPos ruleName (some (.done v e st2.input))
          if readCell st2.cells c then
            growLoop fuel rule ruleName oldPos st2.input v e st2.input st3
          else
            .ok v e st3
  | some (.lr c) => .err (.parse ⟨none, none⟩) (writeCellSt st c true)
  | some (.done v e endInput) => .ok v e { st with input := endInput }

/-- OMetaBase.apply (runtime.py lines 303-315): resolve `rule_<name>` in the
grammar; a missing rule raises `NameError`, not a parse failure.  (The final
re-wrapping `val, _MaybeParseError(*err)` is the identity on the modelled
payload.) -/
def apply (fuel : Nat) (rules : String → Option Rule) (ruleName : String) : Rule := fun st =>
  match rules ruleName with
  | some r => applyRule fuel r ruleName st
  | none => .err (.name ("No rule named " ++ pyQuote ++ ruleName ++ pyQuote)) st

/-- OMetaBase.superApply (runtime.py lines 290-301): resolve the rule in the
parent grammar, clear the memo entry (`setMemo(name, None)`) and apply; a
missing rule raises `NameError`. -/
def superApply (fuel : Nat) (parentRules : String → Option Rule) (ruleName : String) : Rule :=
  fun st =>
  match parentRules ruleName with
  | some r => applyRule fuel r ruleName (setMemoSt st st.input ruleName none)
  | none => .err (.name ("No rule named " ++ pyQuote ++ ruleName ++ pyQuote)) st

/-- `%s` of an optional string (`None` prints as `None`). -/
def optStr : Option String → String
  | none => "None"
  | some s => s

/-- The single-item branch of `_MaybeParseError.formatReason` (runtime.py
lines 37-43): a message item yields its text; an expected item with no value
yields `"expected a " + typ` (a `TypeError` — modelled `none` — when `typ`
is `None`); otherwise `"expected the %s %s" % (typ, val)`. -/
def reasonOfItem : ErrItem → Option String
  | .message m => some m
  | .expected typ val =>
      match val with
      | none =>
          match typ with
          | some t => some ("expected a " ++ t)
          | none => none
      | some v => some ("expected the " ++ optStr typ ++ " " ++ pyStr v)

/-- One `desc` of the multi-item branch of `formatReason` (lines 45-53): a
message pair crashes on `s[2]` (`none`); an expected item with no value
yields `"a " + typ` (crashing when `typ` is `None`); otherwise `repr(val)`,
prefixed by `typ` when present. -/
def descOfItem : ErrItem → Option String
  | .message _ => none
  | .expected typ val =>
      match val with
      | none =>
          match typ with
          | some t => some ("a " ++ t)
          | none => none
      | some v =>
          match typ with
          | some t => some (t ++ " " ++ pyRepr v)
          | none => some (pyRepr v)

/-- Split a list into its leading part and last element. -/
def lastSplit : List String → Option (List String × String)
  | [] => none
  | [x] => some ([], x)
  | x :: y :: xs =>
      match lastSplit (y :: xs) with
      | some (ys, l) => some (x :: ys, l)
      | none => none

/-- `_MaybeParseError.formatReason` (runtime.py lines 34-55).  `none` models
the host exceptions the Python code raises on malformed item sets (string
concatenation with `None`, `s[2]` on a message pair, `bits[-1]` on an empty
set). -/
def formatReason (items : Option (List ErrItem)) : Option String :=
  match items with
  | none => some ""
  | some l =>
      match l with
      | [i] => reasonOfItem i
      | _ =>
          match l.mapM descOfItem with
          | none => none
          | some bits =>
              match lastSplit bits with
              | none => none
              | some (front, last) =>
                  some ("expected one of " ++ String.intercalate ", " front ++ ", or " ++ last)

/-- A run of spaces (`' ' * column`). -/
def spaces (n : Nat) : String :=
  String.mk (List.replicate n ' ')

/-- Python `input.split('\n')` on the character list: every newline separates
two (possibly empty) pieces. -/
def splitChars : List Char → List (List Char)
  | [] => [[]]
  | c :: rest =>
      if c = '\n' then [] :: splitChars rest
      else
        match splitChars rest with
        | l :: ls => (c :: l) :: ls
        | [] => [[c]]

/-- Python `input.split('\n')`. -/
def pySplit (input : String) : List String :=
  (splitChars input.data).map String.mk

/-- The line-finding loop of `_MaybeParseError.formatError` (runtime.py lines
61-72): walk the lines keeping the offset of the current line's start; break
at the first line whose end passes the failure position, yielding that line,
the 1-based line number and `position - counter`; when no line breaks the
loop the last line is kept with column 0. -/
def findLine : List String → Nat → Nat → Nat → String × Nat × Nat
  | [], _, lineNumber, _ => ("", lineNumber, 0)
  | l :: rest, counter, lineNumber, pos =>
      if pos < counter + l.length + 1 then (l, lineNumber, pos - counter)
      else
        match rest with
        | [] => (l, lineNumber + 1, 0)
        | _ => findLine rest (counter + l.length + 1) (lineNumber + 1) pos

/-- `_MaybeParseError.formatError` (runtime.py lines 57-77): render the line
holding the failure position, a caret under the (0-based) column, and the
formatted reason.  A `None` position crashes the Python code (`None`
arithmetic), modelled as `none`. -/
def formatError (input : String) (f : Fail) : Option String :=
  match f.pos with
  | none => none
  | some p =>
      match formatReason f.items with
      | none => none
      | some reason =>
          some ("\n" ++ (findLine (pySplit input) 0 1 p).1 ++ "\n" ++
            (spaces (findLine (pySplit input) 0 1 p).2.2 ++ "^") ++
            "\nParse error at line " ++ toString (findLine (pySplit input) 0 1 p).2.1 ++
            ", column " ++ toString (findLine (pySplit input) 0 1 p).2.2 ++
            ": " ++ reason ++ "\n")

/-- Offset of the start of line `i` in the joined text (each earlier line
contributes its length plus the newline). -/
def lineStart : List String → Nat → Nat
  | _, 0 => 0
  | [], _ + 1 => 0
  | l :: rest, i + 1 => l.length + 1 + lineStart rest i

/-! Concrete material for witnesses and counterexamples, and run predicates
used to state the claim theorems. -/

/-- The input `"ab"` as `fromIterable` tokenises it. -/
def abData : List Val := [.ch 'a', .ch 'b']

/-- A fresh engine over `"ab"`. -/
def abSt : EngineState := ⟨⟨0, abData, 0⟩, [], [], 0, 1⟩

/-- A demonstration rule: match the literal `'a'`. -/
def c1Rule : Rule := exactly (.str "a")

/-- The engine state left by a first successful application of `c1Rule`. -/
def c1St1 : EngineState := (applyRule 1 c1Rule "r" abSt).state

/-- A booby-trapped rule whose invocation would be visible (it raises a
`NameError`); used to demonstrate that a memoized application never runs the
procedure. -/
def c1Other : Rule := fun st => .err (.name "never run") st

/-- An alternative that succeeds with value `"a"` without touching state. -/
def okA : Rule := fun st => .ok (.str "a") ⟨some 0, none⟩ st

/-- An alternative that succeeds with value `"b"` without touching state. -/
def okB : Rule := fun st => .ok (.str "b") ⟨some 0, none⟩ st

/-- An alternative whose invocation is observable: it stores a memo record
under the name `"MARK"` before succeeding. -/
def markerRule : Rule := fun st =>
  .ok (.str "c") ⟨some 0, none⟩ (setMemoSt st st.input "MARK" none)

/-- The input `"aab"`. -/
def aabData : List Val := [.ch 'a', .ch 'a', .ch 'b']

/-- A fresh engine over `"aab"`. -/
def aabSt : EngineState := ⟨⟨0, aabData, 0⟩, [], [], 0, 1⟩

/-- A fresh engine over the single non-iterable token `'x'` (a `character`). -/
def xSt : EngineState := ⟨⟨0, [.ch 'x'], 0⟩, [], [], 0, 1⟩

/-- A fresh engine whose next token is the list `['p']`, followed by `'q'`. -/
def lpSt : EngineState := ⟨⟨0, [.list [.ch 'p'], .ch 'q'], 0⟩, [], [], 0, 1⟩

/-- A grammar with no rules at all. -/
def noRules : String → Option Rule := fun _ => none

/-- The state in which `rule_anything` leaves the `listpattern` sub-parse of
`['p']` (sub-stream fully consumed). -/
def lpSub1 : EngineState :=
  (rule_anything (subSt { lpSt with input := lpSt.input.tail } [.ch 'p'])).state

/-- The tokenised input `"ab"` of the left-recursion run. -/
def lrData : List Val := [.ch 'a', .ch 'b']

/-- Cursors of that run: position 0 (the recursion head), 1 (the seed's end,
i.e. the sentinel) and 2 (where every later growth iteration ends). -/
def lrS0 : InputStream := ⟨0, lrData, 0⟩

/-- Position 1 of the left-recursion run. -/
def lrS1 : InputStream := ⟨0, lrData, 1⟩

/-- Position 2 of the left-recursion run. -/
def lrS2 : InputStream := ⟨0, lrData, 2⟩

/-- The error payload the growth iterations keep computing: the `'b'`
repetition stopped by end of input at position 2. -/
def lrEJ : Fail := ⟨some 2, some [eofItem]⟩

/-- The compiled form of the left-recursive grammar `A = A 'b'* | 'a'`:
an ordered choice between (apply `A`, then `'b'*`) and `'a'`.  The `Nat`
argument bounds the self-application depth; the inner application only ever
hits a memo record, so any positive depth behaves identically. -/
def ruleA : Nat → Rule
  | 0 => fun st => .err .fuelExhausted st
  | n + 1 =>
      _or [ seq2 (fun st => applyRule 1 (ruleA n) "A" st) (many 3 (exactly (.str "b")))
          , exactly (.str "a") ]

/-- A fresh engine over `"ab"` for the left-recursive grammar. -/
def lrSt0 : EngineState := ⟨lrS0, [], [], 0, 1⟩

/-- The engine state at the moment the growing loop first repeats itself
(after the seed `'a'` and two growth iterations). -/
def lrStFix : EngineState := (applyRule 2 (ruleA 2) "A" lrSt0).state

/-- A run in which every listed alternative, tried in order with the input
reset to `m` beforehand, raises a `_MaybeParseError`; it accumulates the
failures' payloads and ends in the state the last attempt left (its input not
yet reset).  This is exactly the failing-prefix behaviour of `_or` and
`_xor`. -/
inductive AllFail (m : InputStream) : List Rule → EngineState → List Fail → EngineState → Prop
  | nil (st : EngineState) : AllFail m [] st [] st
  | cons {f : Rule} {fs : List Rule} {st : EngineState} {pf : Fail} {st' : EngineState}
      {errs : List Fail} {stF : EngineState} :
      f { st with input := m } = .err (.parse pf) st' →
      AllFail m fs st' errs stF →
      AllFail m (f :: fs) st (pf :: errs) stF

/-- A complete `many` run: from `st`, the callable succeeds with the listed
values in order, reaching `stLast`, and then raises a `_MaybeParseError`
with payload `pf`, leaving `stErr`. -/
inductive ManyRun (fn : Rule) : EngineState → List Val → EngineState → Fail → EngineState → Prop
  | fail {st : EngineState} {pf : Fail} {stErr : EngineState} :
      fn st = .err (.parse pf) stErr →
      ManyRun fn st [] st pf stErr
  | step {st : EngineState} {v : Val} {e : Fail} {st' : EngineState} {vs : List Val}
      {stLast : EngineState} {pf : Fail} {stErr : EngineState} :
      fn st = .ok v e st' →
      ManyRun fn st' vs stLast pf stErr →
      ManyRun fn st (v :: vs) stLast pf stErr

/-! Helper lemmas. -/

/-- Memo lookup ignores the current input field of the state. -/
theorem getMemoSt_set_input (st : EngineState) (i s : InputStream) (n : String) :
    getMemoSt { st with input := i } s n = getMemoSt st s n := rfl

/-- Re-setting the input to its current value is the identity. -/
theorem set_input_self (st : EngineState) : ({ st with input := st.input } : EngineState) = st :=
  rfl

/-! Claim C1. -/

/-- C1 (memoization idempotence): once a successful application of `name` at
the cursor of `st` has stored `Done(v, e, st1.input)` in the memo — and that
record is still in place — applying the rule again at the same cursor returns
the identical stored `(value, error)` pair with the input moved to the stored
end cursor, for every rule procedure and every fuel supply: the procedure is
not re-executed. -/
theorem c1_memoization_idempotence
    (fuel : Nat) (rule : Rule) (name : String) (st : EngineState) (v : Val) (e : Fail)
    (st1 : EngineState)
    (_h1 : applyRule fuel rule name st = .ok v e st1)
    (h2 : getMemoSt st1 st.input name = some (.done v e st1.input))
    (fuel2 : Nat) (rule2 : Rule) :
    applyRule fuel2 rule2 name { st1 with input := st.input } = .ok v e st1 := by
  have h2' : getMemoSt { st1 with input := st.input }
      ({ st1 with input := st.input } : EngineState).input name =
      some (.done v e st1.input) := h2
  unfold applyRule
  rw [h2']

/-- Witness for C1: a first application of the literal-`'a'` rule over `"ab"`
succeeds and stores its record; re-applying at the same cursor — with zero
fuel and a booby-trapped procedure that would raise `NameError` if invoked —
returns the identical stored pair. -/
theorem c1_memoization_idempotence_witness :
    applyRule 1 c1Rule "r" abSt = .ok (.ch 'a') ⟨some 0, none⟩ c1St1 ∧
    getMemoSt c1St1 abSt.input "r" = some (.done (.ch 'a') ⟨some 0, none⟩ c1St1.input) ∧
    applyRule 0 c1Other "r" { c1St1 with input := abSt.input } = .ok (.ch 'a') ⟨some 0, none⟩ c1St1 :=
  ⟨rfl, rfl,
    c1_memoization_idempotence 1 c1Rule "r" abSt (.ch 'a') ⟨some 0, none⟩ c1St1 rfl rfl 0 c1Other⟩

/-! Claim C2. -/

/-- C2 counterexample: two failures at the same position 5.  The claim says a
tying failure replaces the stored one with the union of the expected-item
sets; `considerError` instead keeps the stored failure completely unchanged
(result items are `["one"]`, not a union containing `"two"`). -/
theorem c2_counterexample :
    considerError ⟨some 5, some [.message "one"]⟩ ⟨some 5, some [.message "two"]⟩ =
      ⟨some 5, some [.message "one"]⟩ := rfl

/-- C2 amended: `considerError` replaces the stored failure iff the new
failure carries a non-empty expected-item list AND its position is strictly
greater (under the Python order in which `None` is below every integer);
on a position tie or regression, or on an empty/absent item list, the stored
failure is kept unchanged — nothing is ever unioned. -/
theorem c2_considerError_amended (current error : Fail) :
    ((∃ l, error.items = some l ∧ l ≠ []) → posGtP error.pos current.pos = true →
      considerError current error = error)
    ∧ (posGtP error.pos current.pos = false → considerError current error = current)
    ∧ (error.items = none ∨ error.items = some [] → considerError current error = current) := by
  refine ⟨?_, ?_, ?_⟩
  · rintro ⟨l, hl, hne⟩ hgt
    have ht : itemsTruthy error.items = true := by
      rw [hl]
      cases l with
      | nil => exact absurd rfl hne
      | cons a as => rfl
    unfold considerError
    rw [ht, hgt]
    rfl
  · intro hle
    unfold considerError
    rw [hle]
    simp
  · intro h
    unfold considerError
    rcases h with h | h <;> rw [h] <;> simp [itemsTruthy]

/-- Witness for the amended C2: a strictly-further failure with a non-empty
item list does replace the stored failure. -/
theorem c2_considerError_amended_witness :
    (∃ l, (⟨some 7, some [.message "m"]⟩ : Fail).items = some l ∧ l ≠ []) ∧
    posGtP (⟨some 7, some [.message "m"]⟩ : Fail).pos (⟨some 5, none⟩ : Fail).pos = true ∧
    considerError ⟨some 5, none⟩ ⟨some 7, some [.message "m"]⟩ = ⟨some 7, some [.message "m"]⟩ :=
  ⟨⟨[.message "m"], rfl, by simp⟩, rfl,
    (c2_considerError_amended ⟨some 5, none⟩ ⟨some 7, some [.message "m"]⟩).1
      ⟨[.message "m"], rfl, by simp⟩ rfl⟩

/-! Claim C6. -/

/-- C6: with a token `t` at the head of the input, `exactly wanted` succeeds
iff `wanted == t` under Python equality, consuming exactly one token (the
input moves to `tail`); on a mismatch it raises a failure whose only expected
item is the literal `wanted` at the head position, and the state — cursor
included — is exactly the entry state: nothing is consumed. -/
theorem c6_exactly (wanted : Val) (st : EngineState) (t : Val)
    (h : st.input.headVal = some t) :
    (Val.beq wanted t = true →
      exactly wanted st = .ok t ⟨some st.input.pos, none⟩ { st with input := st.input.tail })
    ∧ (Val.beq wanted t = false →
      exactly wanted st =
        .err (.parse ⟨some st.input.pos, some [.expected none (some wanted)]⟩) st) := by
  constructor <;> intro hb <;> unfold exactly <;> rw [h] <;> simp [hb]

/-- Witness for C6: over `"ab"`, `exactly("a")` consumes the head `character`
`'a'` (Python string equality makes `"a" == character('a')` true), while
`exactly("z")` fails expecting the literal `"z"` and leaves the state
untouched. -/
theorem c6_exactly_witness :
    abSt.input.headVal = some (.ch 'a') ∧
    exactly (.str "a") abSt = .ok (.ch 'a') ⟨some 0, none⟩ { abSt with input := abSt.input.tail } ∧
    exactly (.str "z") abSt =
      .err (.parse ⟨some 0, some [.expected none (some (.str "z"))]⟩) abSt :=
  ⟨rfl, (c6_exactly (.str "a") abSt (.ch 'a') rfl).1 rfl,
    (c6_exactly (.str "z") abSt (.ch 'a') rfl).2 rfl⟩

/-! Claim C10. -/

/-- C10: a rule name the grammar does not define makes `apply` and
`superApply` raise a `NameError` naming the rule — not a parse failure — and
a `NameError` passes straight through ordered choice, repetition and
lookahead (their handlers catch only `_MaybeParseError`), so it is never
absorbed by backtracking. -/
theorem c10_unknown_rule :
    (∀ (fuel : Nat) (rules : String → Option Rule) (name : String) (st : EngineState),
      rules name = none →
      apply fuel rules name st =
        .err (.name ("No rule named " ++ pyQuote ++ name ++ pyQuote)) st)
    ∧ (∀ (fuel : Nat) (rules : String → Option Rule) (name : String) (st : EngineState),
      rules name = none →
      superApply fuel rules name st =
        .err (.name ("No rule named " ++ pyQuote ++ name ++ pyQuote)) st)
    ∧ (∀ (f : Rule) (rest : List Rule) (st : EngineState) (msg : String) (st' : EngineState),
      f st = .err (.name msg) st' → _or (f :: rest) st = .err (.name msg) st')
    ∧ (∀ (fn : Rule) (fuel : Nat) (st : EngineState) (msg : String) (st' : EngineState),
      fn st = .err (.name msg) st' → many (fuel + 1) fn st = .err (.name msg) st')
    ∧ (∀ (f : Rule) (st : EngineState) (msg : String) (st' : EngineState),
      f st = .err (.name msg) st' →
      lookahead f st = .err (.name msg) { st' with input := st.input }) := by
  refine ⟨?_, ?_, ?_, ?_, ?_⟩
  · intro fuel rules name st h
    unfold apply
    rw [h]
  · intro fuel rules name st h
    unfold superApply
    rw [h]
  · intro f rest st msg st' h
    unfold _or orAux
    rw [h]
  · intro fn fuel st msg st' h
    unfold many manyAux
    rw [h]
  · intro f st msg st' h
    unfold lookahead
    rw [h]

/-- Witness for C10: an empty grammar makes `apply` raise the `NameError`,
and the very same outcome survives `_or`, `many` and `lookahead` unchanged. -/
theorem c10_unknown_rule_witness :
    noRules "grammar" = none ∧
    apply 1 noRules "grammar" abSt =
      .err (.name ("No rule named " ++ pyQuote ++ "grammar" ++ pyQuote)) abSt ∧
    _or [apply 1 noRules "grammar"] abSt =
      .err (.name ("No rule named " ++ pyQuote ++ "grammar" ++ pyQuote)) abSt ∧
    many 3 (apply 1 noRules "grammar") abSt =
      .err (.name ("No rule named " ++ pyQuote ++ "grammar" ++ pyQuote)) abSt ∧
    lookahead (apply 1 noRules "grammar") abSt =
      .err (.name ("No rule named " ++ pyQuote ++ "grammar" ++ pyQuote))
        { abSt with input := abSt.input } :=
  ⟨rfl, c10_unknown_rule.1 1 noRules "grammar" abSt rfl,
    c10_unknown_rule.2.2.1 (apply 1 noRules "grammar") [] abSt _ abSt
      (c10_unknown_rule.1 1 noRules "grammar" abSt rfl),
    c10_unknown_rule.2.2.2.1 (apply 1 noRules "grammar") 2 abSt _ abSt
      (c10_unknown_rule.1 1 noRules "grammar" abSt rfl),
    c10_unknown_rule.2.2.2.2 (apply 1 noRules "grammar") abSt _ abSt
      (c10_unknown_rule.1 1 noRules "grammar" abSt rfl)⟩

/-! Claim C4. -/

/-- Reading the input of an updated state. -/
theorem input_update (st : EngineState) (i : InputStream) :
    ({ st with input := i } : EngineState).input = i := rfl

/-- Unfolding `orAux` on a cons cell. -/
theorem orAux_cons (f : Rule) (rest : List Rule) (E : List Fail) (st : EngineState) :
    orAux (f :: rest) E st =
      match f st with
      | .ok v e st' => .ok v (joinErrors (E ++ [e])) st'
      | .err (.parse pf) st' => orAux rest (E ++ [pf]) { st' with input := st.input }
      | .err e st' => .err e st' := rfl

/-- Unfolding `orAux` on the empty list. -/
theorem orAux_nil (E : List Fail) (st : EngineState) :
    orAux [] E st =
      if E.isEmpty then .err .indexError st else .err (.parse (joinErrors E)) st := rfl

/-- An `AllFail` run accumulates one failure payload per alternative. -/
theorem allFail_length {m : InputStream} {fs : List Rule} {st : EngineState} {errs : List Fail}
    {stF : EngineState} (h : AllFail m fs st errs stF) : errs.length = fs.length := by
  induction h with
  | nil st => rfl
  | cons hf hrest ih => simpa using ih

/-- Processing a failing prefix of alternatives through the `_or` loop: each
failure payload is appended to the accumulator and the input is reset. -/
theorem orAux_allFail (m : InputStream) {fs : List Rule} {stA : EngineState} {errs : List Fail}
    {stF : EngineState} (h : AllFail m fs stA errs stF) :
    ∀ (rest : List Rule) (E : List Fail),
      orAux (fs ++ rest) E { stA with input := m } =
        orAux rest (E ++ errs) { stF with input := m } := by
  induction h with
  | nil st => intro rest E; simp
  | cons hf hrest ih =>
      rename_i f fs' st pf st' errs' stF'
      intro rest E
      rw [List.cons_append]
      simp only [orAux_cons, hf, input_update]
      simpa using ih rest (E ++ [pf])

/-- C4 amended (ordered choice, nonempty alternative lists): `_or` tries the
alternatives in written order, resetting the input to the pre-choice cursor
after each parse failure; the first success determines the value (paired with
the join of every error seen) and the final state — and the alternatives
after it are irrelevant: they are never invoked.  When every alternative
fails, `_or` raises the `joinErrors` merge of all the branches' failures —
maximal position, united expected items — with the input back at the
pre-choice cursor.  (The original claim quantified over *every* list: on the
empty list the code instead raises an `IndexError`, see the
counterexample.) -/
theorem c4_or_amended :
    (∀ (pre post : List Rule) (f : Rule) (st : EngineState) (errs : List Fail)
        (st1 : EngineState) (v : Val) (e : Fail) (st2 : EngineState),
      AllFail st.input pre st errs st1 →
      f { st1 with input := st.input } = .ok v e st2 →
      (∀ post' : List Rule,
        _or (pre ++ f :: post') st = .ok v (joinErrors (errs ++ [e])) st2) ∧
      _or (pre ++ f :: post) st = .ok v (joinErrors (errs ++ [e])) st2)
    ∧ (∀ (fns : List Rule) (st : EngineState) (errs : List Fail) (st1 : EngineState),
      fns ≠ [] → AllFail st.input fns st errs st1 →
      _or fns st = .err (.parse (joinErrors errs)) { st1 with input := st.input }) := by
  constructor
  · intro pre post f st errs st1 v e st2 hpre hf
    have key : ∀ post', _or (pre ++ f :: post') st = .ok v (joinErrors (errs ++ [e])) st2 := by
      intro post'
      unfold _or
      have h0 := orAux_allFail st.input hpre (f :: post') []
      rw [set_input_self] at h0
      rw [h0]
      simp only [orAux_cons, hf]
      simp
    exact ⟨key, key post⟩
  · intro fns st errs st1 hne hall
    unfold _or
    have h0 := orAux_allFail st.input hall [] []
    rw [set_input_self, List.append_nil] at h0
    rw [h0, orAux_nil]
    have hlen : errs ≠ [] := by
      intro habs
      apply hne
      have hl := allFail_length hall
      rw [habs] at hl
      exact List.length_eq_zero.mp hl.symm
    cases errs with
    | nil => exact absurd rfl hlen
    | cons a l => simp

/-- C4 counterexample: `_or` over the empty alternative list.  Vacuously every
alternative fails, but instead of raising the merged parse failure the claim
promises, the code raises an `IndexError` (`joinErrors([])` indexes an empty
list) — not a parse failure at all. -/
theorem c4_counterexample :
    _or [] abSt = .err .indexError abSt ∧ (_or [] abSt).isParseErr = false :=
  ⟨rfl, rfl⟩

/-- Witness for the amended C4: over `"ab"`, with alternatives
`["z", "a", "b"]`, the failing `"z"` branch is rewound, the `"a"` branch wins
with the merged error, and `["z"]` alone fails with the merge, cursor
restored. -/
theorem c4_or_amended_witness :
    exactly (.str "z") { abSt with input := abSt.input } =
      .err (.parse ⟨some 0, some [.expected none (some (.str "z"))]⟩) abSt ∧
    exactly (.str "a") { abSt with input := abSt.input } =
      .ok (.ch 'a') ⟨some 0, none⟩ { abSt with input := abSt.input.tail } ∧
    _or [exactly (.str "z"), exactly (.str "a"), exactly (.str "b")] abSt =
      .ok (.ch 'a')
        (joinErrors [⟨some 0, some [.expected none (some (.str "z"))]⟩, ⟨some 0, none⟩])
        { abSt with input := abSt.input.tail } ∧
    _or [exactly (.str "z")] abSt =
      .err (.parse (joinErrors [⟨some 0, some [.expected none (some (.str "z"))]⟩]))
        { abSt with input := abSt.input } :=
  ⟨rfl, rfl,
    (c4_or_amended.1 [exactly (.str "z")] [exactly (.str "b")] (exactly (.str "a")) abSt
      [⟨some 0, some [.expected none (some (.str "z"))]⟩] abSt (.ch 'a') ⟨some 0, none⟩
      { abSt with input := abSt.input.tail }
      (AllFail.cons rfl (AllFail.nil abSt)) rfl).2,
    c4_or_amended.2 [exactly (.str "z")] abSt
      [⟨some 0, some [.expected none (some (.str "z"))]⟩] abSt (by simp)
      (AllFail.cons rfl (AllFail.nil abSt))⟩

/-! Claim C5. -/

/-- Unfolding `xorAux` on a cons cell. -/
theorem xorAux_cons (f : Rule) (rest : List Rule) (m : InputStream) (E : List Fail)
    (acc : Option (Val × InputStream)) (st : EngineState) :
    xorAux (f :: rest) m E acc st =
      match f { st with input := m } with
      | .err (.parse pf) st' => xorAux rest m (E ++ [pf]) acc st'
      | .err e st' => .err e st'
      | .ok ret err st' =>
          match acc with
          | some (result, _) =>
              .err (.parse ⟨some m.pos,
                some [.message ("xor rule matched " ++ pyStr result ++ " and " ++ pyStr ret)]⟩)
                { st' with input := m }
          | none => xorAux rest m (E ++ [err]) (some (ret, st'.input)) st' := rfl

/-- Unfolding `xorAux` on the empty list. -/
theorem xorAux_nil (m : InputStream) (E : List Fail) (acc : Option (Val × InputStream))
    (st : EngineState) :
    xorAux [] m E acc st =
      match acc with
      | none =>
          if E.isEmpty then .err .indexError { st with input := m }
          else .err (.parse (joinErrors E)) { st with input := m }
      | some (result, ri) => .ok result (joinErrors E) { st with input := ri } := rfl

/-- Processing a failing segment of alternatives through the `_xor` loop:
each failure payload is appended and the held success, if any, is kept. -/
theorem xorAux_allFail (m : InputStream) {fs : List Rule} {stA : EngineState} {errs : List Fail}
    {stF : EngineState} (h : AllFail m fs stA errs stF) :
    ∀ (rest : List Rule) (E : List Fail) (acc : Option (Val × InputStream)),
      xorAux (fs ++ rest) m E acc stA = xorAux rest m (E ++ errs) acc stF := by
  induction h with
  | nil st => intro rest E acc; simp
  | cons hf hrest ih =>
      rename_i f fs' st pf st' errs' stF'
      intro rest E acc
      rw [List.cons_append]
      simp only [xorAux_cons, hf]
      simpa using ih rest (E ++ [pf]) acc

/-- C5 amended (exclusive choice): `_xor` tries the alternatives in written
order, each attempt starting from the entry cursor.  Zero successes (nonempty
list): it raises the `joinErrors` merge of every branch's failure, cursor
restored to entry.  Exactly one success: it returns that alternative's value
(paired with the join of all branch errors) with the cursor at that
alternative's end.  A second success: it raises the ambiguous-match failure
at the entry position, naming the first two matched values, cursor restored
to entry — and it stops there, so alternatives after the second success are
never attempted (which is why the original "runs every alternative" reading
fails, see the counterexample; the empty list instead raises an
`IndexError`). -/
theorem c5_xor_amended :
    (∀ (fns : List Rule) (st : EngineState) (errs : List Fail) (stF : EngineState),
      fns ≠ [] → AllFail st.input fns st errs stF →
      _xor fns st = .err (.parse (joinErrors errs)) { stF with input := st.input })
    ∧ (∀ (pre post : List Rule) (f : Rule) (st : EngineState) (errs1 : List Fail)
        (st1 : EngineState) (v : Val) (e : Fail) (st2 : EngineState) (errs2 : List Fail)
        (st3 : EngineState),
      AllFail st.input pre st errs1 st1 →
      f { st1 with input := st.input } = .ok v e st2 →
      AllFail st.input post st2 errs2 st3 →
      _xor (pre ++ f :: post) st =
        .ok v (joinErrors (errs1 ++ e :: errs2)) { st3 with input := st2.input })
    ∧ (∀ (pre mid post : List Rule) (f g : Rule) (st : EngineState) (errs1 : List Fail)
        (st1 : EngineState) (v : Val) (e : Fail) (st2 : EngineState) (errs2 : List Fail)
        (st3 : EngineState) (w : Val) (e2 : Fail) (st4 : EngineState),
      AllFail st.input pre st errs1 st1 →
      f { st1 with input := st.input } = .ok v e st2 →
      AllFail st.input mid st2 errs2 st3 →
      g { st3 with input := st.input } = .ok w e2 st4 →
      _xor (pre ++ f :: (mid ++ g :: post)) st =
        .err (.parse ⟨some st.input.pos,
          some [.message ("xor rule matched " ++ pyStr v ++ " and " ++ pyStr w)]⟩)
          { st4 with input := st.input }) := by
  refine ⟨?_, ?_, ?_⟩
  · intro fns st errs stF hne hall
    unfold _xor
    have h0 := xorAux_allFail st.input hall [] [] none
    rw [List.append_nil] at h0
    rw [h0, xorAux_nil]
    have hlen : errs ≠ [] := by
      intro habs
      apply hne
      have hl := allFail_length hall
      rw [habs] at hl
      exact List.length_eq_zero.mp hl.symm
    cases errs with
    | nil => exact absurd rfl hlen
    | cons a l => simp
  · intro pre post f st errs1 st1 v e st2 errs2 st3 hpre hf hpost
    unfold _xor
    have h0 := xorAux_allFail st.input hpre (f :: post) [] none
    rw [h0]
    simp only [xorAux_cons, hf]
    have h1 := xorAux_allFail st.input hpost [] (([] ++ errs1) ++ [e]) (some (v, st2.input))
    rw [List.append_nil] at h1
    rw [h1]
    simp only [xorAux_nil]
    simp
  · intro pre mid post f g st errs1 st1 v e st2 errs2 st3 w e2 st4 hpre hf hmid hg
    unfold _xor
    have h0 := xorAux_allFail st.input hpre (f :: (mid ++ g :: post)) [] none
    rw [h0]
    simp only [xorAux_cons, hf]
    have h1 := xorAux_allFail st.input hmid (g :: post) (([] ++ errs1) ++ [e])
      (some (v, st2.input))
    rw [h1]
    simp only [xorAux_cons, hg]

/-- C5 counterexample: three alternatives over `"ab"`, the first two of which
succeed.  The claim says `_xor` runs *every* alternative from the starting
cursor; instead the code raises the ambiguity error at the second success and
the third alternative — whose invocation would have left a `"MARK"` memo
record — is never run: the result state's memo has no such record. -/
theorem c5_counterexample :
    _xor [okA, okB, markerRule] abSt =
      .err (.parse ⟨some 0, some [.message "xor rule matched a and b"]⟩) abSt
    ∧ findMemo ((_xor [okA, okB, markerRule] abSt).state).memo (0, 0, "MARK") = none :=
  ⟨rfl, rfl⟩

/-- Witness for the amended C5: the ambiguity case on `[okA, okB, marker]`
(stopping before the marker) and the single-success case on `["z", okA]`. -/
theorem c5_xor_amended_witness :
    okA { abSt with input := abSt.input } = .ok (.str "a") ⟨some 0, none⟩ abSt ∧
    okB { abSt with input := abSt.input } = .ok (.str "b") ⟨some 0, none⟩ abSt ∧
    _xor [okA, okB, markerRule] abSt =
      .err (.parse ⟨some 0, some [.message "xor rule matched a and b"]⟩)
        { abSt with input := abSt.input } ∧
    _xor [exactly (.str "z"), okA] abSt =
      .ok (.str "a")
        (joinErrors [⟨some 0, some [.expected none (some (.str "z"))]⟩, ⟨some 0, none⟩])
        { abSt with input := abSt.input } :=
  ⟨rfl, rfl,
    c5_xor_amended.2.2 [] [] [markerRule] okA okB abSt [] abSt (.str "a") ⟨some 0, none⟩ abSt
      [] abSt (.str "b") ⟨some 0, none⟩ abSt (AllFail.nil abSt) rfl (AllFail.nil abSt) rfl,
    c5_xor_amended.2.1 [exactly (.str "z")] [] okA abSt
      [⟨some 0, some [.expected none (some (.str "z"))]⟩] abSt (.str "a") ⟨some 0, none⟩ abSt
      [] abSt (AllFail.cons rfl (AllFail.nil abSt)) rfl (AllFail.nil abSt)⟩

/-! Claim C7. -/

/-- Unfolding one `many` iteration. -/
theorem manyAux_succ (fuel : Nat) (fn : Rule) (ans : List Val) (st : EngineState) :
    manyAux (fuel + 1) fn ans st =
      match fn st with
      | .ok v _ st' => manyAux fuel fn (ans ++ [v]) st'
      | .err (.parse pf) st' => .ok (.list ans) pf { st' with input := st.input }
      | .err e st' => .err e st' := rfl

/-- A complete `ManyRun` determines the `many` loop's outcome, for any
accumulator and any sufficient fuel. -/
theorem manyAux_run {fn : Rule} {st : EngineState} {vs : List Val} {stLast : EngineState}
    {pf : Fail} {stErr : EngineState} (h : ManyRun fn st vs stLast pf stErr) :
    ∀ (fuel : Nat) (ans : List Val), vs.length < fuel →
    manyAux fuel fn ans st = .ok (.list (ans ++ vs)) pf { stErr with input := stLast.input } := by
  induction h with
  | fail hf =>
      intro fuel ans hfuel
      cases fuel with
      | zero => simp at hfuel
      | succ k =>
          simp only [manyAux_succ, hf]
          simp
  | step hf hrest ih =>
      rename_i st0 v0 e0 st0' vs0 stLast0 pf0 stErr0
      intro fuel ans hfuel
      cases fuel with
      | zero => simp at hfuel
      | succ k =>
          simp only [manyAux_succ, hf]
          have hrec := ih k (ans ++ [v0]) (by simpa using hfuel)
          rw [hrec]
          simp

/-- C7: `many fn` applies `fn` repeatedly from the current cursor, collecting
every success's value into a list in order, until `fn` raises a parse
failure; only that final failing attempt is rewound — the input is restored
to the end of the last success while the failing attempt's other state
effects are kept — and the collected list is returned with the failure's
payload.  In particular, when `fn` fails at the very first attempt the result
is the empty list and the cursor is exactly the entry cursor. -/
theorem c7_many :
    (∀ (fn : Rule) (st : EngineState) (vs : List Val) (stLast : EngineState) (pf : Fail)
        (stErr : EngineState) (fuel : Nat),
      ManyRun fn st vs stLast pf stErr → vs.length < fuel →
      many fuel fn st = .ok (.list vs) pf { stErr with input := stLast.input })
    ∧ (∀ (fn : Rule) (st : EngineState) (pf : Fail) (stErr : EngineState) (fuel : Nat),
      fn st = .err (.parse pf) stErr →
      many (fuel + 1) fn st = .ok (.list []) pf { stErr with input := st.input }) := by
  constructor
  · intro fn st vs stLast pf stErr fuel h hfuel
    unfold many
    simpa using manyAux_run h fuel [] hfuel
  · intro fn st pf stErr fuel hf
    unfold many
    simp only [manyAux_succ, hf]

/-- Witness for C7: over `"aab"`, `many (exactly "a")` collects `['a', 'a']`
and stops before `'b'` with the cursor after the second `'a'`; with the
never-matching `exactly "z"` it returns `[]` and the cursor stays at entry. -/
theorem c7_many_witness :
    many 3 (exactly (.str "a")) aabSt =
      .ok (.list [.ch 'a', .ch 'a']) ⟨some 2, some [.expected none (some (.str "a"))]⟩
        { aabSt with input := ⟨0, aabData, 2⟩ } ∧
    many 5 (exactly (.str "z")) aabSt =
      .ok (.list []) ⟨some 0, some [.expected none (some (.str "z"))]⟩
        { aabSt with input := aabSt.input } :=
  ⟨c7_many.1 (exactly (.str "a")) aabSt [.ch 'a', .ch 'a'] { aabSt with input := ⟨0, aabData, 2⟩ }
      ⟨some 2, some [.expected none (some (.str "a"))]⟩ { aabSt with input := ⟨0, aabData, 2⟩ } 3
      (ManyRun.step rfl (ManyRun.step rfl (ManyRun.fail rfl))) (by decide),
    c7_many.2 (exactly (.str "z")) aabSt ⟨some 0, some [.expected none (some (.str "z"))]⟩
      aabSt 4 rfl⟩

/-! Claim C8. -/

/-- C8 amended (list-pattern): `listpattern expr` consumes one token `v`.  On
failure it raises, but it does NOT restore the cursor to its entry value: a
non-sequence `v` raises the failure expecting "an iterable" with the cursor
left just past `v`; a failure of `expr` inside the sub-parse propagates
as-is, the cursor still inside the sub-stream; leftover sub-stream tokens
raise the null failure one past the sub-parse's end, cursor inside the
sub-stream.  On success it returns `v` with the cursor advanced past `v` in
the enclosing stream.  (Restoration after a failure is the enclosing choice
combinator's job, not `listpattern`'s — see the counterexample.) -/
theorem c8_listpattern_amended (expr : Rule) (st : EngineState) (v : Val)
    (h : st.input.headVal = some v) :
    (fromIterableVal v = none →
      listpattern expr st =
        .err (.parse ⟨some st.input.pos, some [.expected (some "an iterable") none]⟩)
          { st with input := st.input.tail })
    ∧ (∀ (elems : List Val),
      fromIterableVal v = some elems →
      (∀ (e2 : PErr) (st3 : EngineState),
        expr (subSt { st with input := st.input.tail } elems) = .err e2 st3 →
        listpattern expr st = .err e2 st3)
      ∧ (∀ (v2 : Val) (e2 : Fail) (st3 : EngineState),
        expr (subSt { st with input := st.input.tail } elems) = .ok v2 e2 st3 →
        (st3.input.headVal = none →
          listpattern expr st =
            .ok v ⟨some st.input.pos, none⟩ { st3 with input := st.input.tail })
        ∧ (∀ (w : Val), st3.input.headVal = some w →
          listpattern expr st =
            .err (.parse ⟨some (st3.input.pos + 1), none⟩)
              { st3 with input := st3.input.tail }))) := by
  have ha : rule_anything st = .ok v ⟨some st.input.pos, none⟩ { st with input := st.input.tail } := by
    unfold rule_anything
    rw [h]
  constructor
  · intro hIter
    simp only [listpattern, ha, hIter]
  · intro elems hIter
    constructor
    · intro e2 st3 hexpr
      simp only [listpattern, ha, hIter, hexpr]
    · intro v2 e2 st3 hexpr
      constructor
      · intro hno
        have hend : rule_end st3 = .ok (.pybool true) ⟨some st3.input.pos, none⟩ st3 := by
          simp only [rule_end, _not, rule_anything, hno]
        simp only [listpattern, ha, hIter, hexpr, hend]
      · intro w hsome
        have hend : rule_end st3 =
            .err (.parse ⟨some (st3.input.pos + 1), none⟩)
              { st3 with input := st3.input.tail } := by
          simp only [rule_end, _not, rule_anything, hsome]
          rfl
        simp only [listpattern, ha, hIter, hexpr, hend]

/-- C8 counterexample: `listpattern` applied where the next token is the
non-iterable `character` `'x'`.  It raises the "an iterable" failure, but the
cursor is at position 1 — just past the consumed token — not restored to the
entry position 0 as the claim states. -/
theorem c8_counterexample :
    listpattern rule_anything xSt =
      .err (.parse ⟨some 0, some [.expected (some "an iterable") none]⟩)
        { xSt with input := xSt.input.tail }
    ∧ (listpattern rule_anything xSt).state.input.pos = 1 ∧ xSt.input.pos = 0 :=
  ⟨rfl, rfl, rfl⟩

/-- Witness for the amended C8: the next token of `lpSt` is the list
`['p']`; the sub-parse `anything` consumes it entirely, so `listpattern`
succeeds with the token as value and the cursor one past it; and on the
`character` input the type-mismatch branch applies. -/
theorem c8_listpattern_amended_witness :
    lpSt.input.headVal = some (.list [.ch 'p']) ∧
    fromIterableVal (.list [.ch 'p']) = some [.ch 'p'] ∧
    rule_anything (subSt { lpSt with input := lpSt.input.tail } [.ch 'p']) =
      .ok (.ch 'p') ⟨some 0, none⟩ lpSub1 ∧
    lpSub1.input.headVal = none ∧
    listpattern rule_anything lpSt =
      .ok (.list [.ch 'p']) ⟨some 0, none⟩ { lpSub1 with input := lpSt.input.tail } ∧
    listpattern rule_anything xSt =
      .err (.parse ⟨some 0, some [.expected (some "an iterable") none]⟩)
        { xSt with input := xSt.input.tail } :=
  ⟨rfl, rfl, rfl, rfl,
    (((c8_listpattern_amended rule_anything lpSt (.list [.ch 'p']) rfl).2 [.ch 'p'] rfl).2
      (.ch 'p') ⟨some 0, none⟩ lpSub1 rfl).1 rfl,
    (c8_listpattern_amended rule_anything xSt (.ch 'x') rfl).1 rfl⟩

/-! Claim C9. -/

/-- Unfolding the line-finding loop on a cons cell. -/
theorem findLine_cons (l : String) (rest : List String) (c ln p : Nat) :
    findLine (l :: rest) c ln p =
      if p < c + l.length + 1 then (l, ln, p - c)
      else
        match rest with
        | [] => (l, ln + 1, 0)
        | _ => findLine rest (c + l.length + 1) (ln + 1) p := rfl

/-- The line-finding loop is correct: when position `p` falls inside (or at
the very end of) the `i`-th line — `p` is that line's start offset plus a
column `col` not exceeding its length — the loop yields that line, the
1-based line number `ln + i`, and the 0-based column `col`. -/
theorem findLine_spec : ∀ (ls : List String) (i : Nat) (line : String) (col p c ln : Nat),
    ls.get? i = some line → col ≤ line.length → p = c + lineStart ls i + col →
    findLine ls c ln p = (line, ln + i, col) := by
  intro ls
  induction ls with
  | nil => intro i line col p c ln hget _ _; simp at hget
  | cons l rest ih =>
      intro i line col p c ln hget hcol hp
      cases i with
      | zero =>
          have hline : l = line := by simpa using hget
          subst hline
          have hlt : p < c + l.length + 1 := by
            have h0 : lineStart (l :: rest) 0 = 0 := rfl
            omega
          rw [findLine_cons, if_pos hlt]
          have hcalc : p - c = col := by
            have h0 : lineStart (l :: rest) 0 = 0 := rfl
            omega
          rw [hcalc]
          rfl
      | succ j =>
          have hget' : rest.get? j = some line := by simpa using hget
          have hls : lineStart (l :: rest) (j + 1) = l.length + 1 + lineStart rest j := rfl
          have hge : ¬ p < c + l.length + 1 := by omega
          cases rest with
          | nil => simp at hget'
          | cons r rs =>
              have hstep : findLine (l :: r :: rs) c ln p =
                  findLine (r :: rs) (c + l.length + 1) (ln + 1) p := by
                rw [findLine_cons, if_neg hge]
              have hrec := ih j line col p (c + l.length + 1) (ln + 1) hget' hcol (by
                have hls2 : lineStart (l :: r :: rs) (j + 1) =
                    l.length + 1 + lineStart (r :: rs) j := rfl
                omega)
              rw [hstep, hrec]
              have harith : ln + 1 + j = ln + (j + 1) := by omega
              rw [harith]

/-- `lastSplit` splits off the final element. -/
theorem lastSplit_append : ∀ (front : List String) (last : String),
    lastSplit (front ++ [last]) = some (front, last) := by
  intro front
  induction front with
  | nil => intro last; rfl
  | cons x xs ih =>
      intro last
      rw [List.cons_append]
      cases xs with
      | nil => rfl
      | cons y ys =>
          rw [List.cons_append]
          simp only [lastSplit]
          rw [show lastSplit (y :: (ys ++ [last])) = some (y :: ys, last) from
            (List.cons_append y ys [last]) ▸ ih last]

/-- C9 counterexample: a failure at position 0 of `"ab"` — the first column.
The claim says the report is 1-based in both coordinates; the code prints
`column 0`: the column (unlike the line number) is 0-based. -/
theorem c9_counterexample :
    formatError "ab" ⟨some 0, some [.expected (some "letter") none]⟩ =
      some "\nab\n^\nParse error at line 1, column 0: expected a letter\n" := by rfl

/-- C9 amended: for a failure position that falls in line `i` (0-based) at
column `col` (0-based, at most the line's length), `formatError` renders the
source line, a caret under column `col`, the 1-based line number `i + 1` and
the 0-BASED column `col`, with the reason derived from the expected-item set:
a single expected item renders as `"expected a <kind>"` (no value) or
`"expected the <kind> <value>"`; several items render as
`"expected one of <desc1>, ..., or <descN>"`. -/
theorem c9_formatError_amended :
    (∀ (input : String) (i : Nat) (line : String) (col p : Nat)
        (items : Option (List ErrItem)) (reason : String),
      (pySplit input).get? i = some line → col ≤ line.length →
      p = lineStart (pySplit input) i + col →
      formatReason items = some reason →
      formatError input ⟨some p, items⟩ =
        some ("\n" ++ line ++ "\n" ++ (spaces col ++ "^") ++ "\nParse error at line " ++
          toString (i + 1) ++ ", column " ++ toString col ++ ": " ++ reason ++ "\n"))
    ∧ (∀ (t : String), formatReason (some [.expected (some t) none]) =
        some ("expected a " ++ t))
    ∧ (∀ (t : Option String) (v : Val), formatReason (some [.expected t (some v)]) =
        some ("expected the " ++ optStr t ++ " " ++ pyStr v))
    ∧ (∀ (l : List ErrItem) (front : List String) (last : String),
      l.mapM descOfItem = some (front ++ [last]) → 2 ≤ l.length →
      formatReason (some l) =
        some ("expected one of " ++ String.intercalate ", " front ++ ", or " ++ last)) := by
  refine ⟨?_, ?_, ?_, ?_⟩
  · intro input i line col p items reason hget hcol hp hreason
    have hfl := findLine_spec (pySplit input) i line col p 0 1 hget hcol (by omega)
    have hln : 1 + i = i + 1 := by omega
    rw [hln] at hfl
    simp only [formatError, hreason, hfl]
  · intro t; rfl
  · intro t v; rfl
  · intro l front last hmap hlen
    cases l with
    | nil => simp at hlen
    | cons a l1 =>
        cases l1 with
        | nil => simp at hlen
        | cons b l2 =>
            simp only [formatReason, hmap, lastSplit_append]

/-- Witness for the amended C9: position 4 of `"ab\ncd"` is column 1 of the
second line; the caret sits under the `'d'` and the report reads
`line 2, column 1`; both the single-item and the multi-item reason templates
are exercised. -/
theorem c9_formatError_amended_witness :
    (pySplit "ab\ncd").get? 1 = some "cd" ∧
    (1 : Nat) ≤ "cd".length ∧
    (4 : Nat) = lineStart (pySplit "ab\ncd") 1 + 1 ∧
    formatReason (some [.expected (some "digit") none]) = some "expected a digit" ∧
    formatError "ab\ncd" ⟨some 4, some [.expected (some "digit") none]⟩ =
      some "\ncd\n ^\nParse error at line 2, column 1: expected a digit\n" ∧
    formatReason (some [.expected (some "string") (some (.str "ab")),
        .expected none (some (.ch 'c'))]) =
      some ("expected one of string " ++ pyQuote ++ "ab" ++ pyQuote ++ ", or " ++
        pyQuote ++ "c" ++ pyQuote) :=
  ⟨rfl, by decide, by decide,
    c9_formatError_amended.2.1 "digit",
    c9_formatError_amended.1 "ab\ncd" 1 "cd" 1 4 (some [.expected (some "digit") none])
      "expected a digit" rfl (by decide) (by decide)
      (c9_formatError_amended.2.1 "digit"),
    c9_formatError_amended.2.2.2
      [.expected (some "string") (some (.str "ab")), .expected none (some (.ch 'c'))]
      ["string " ++ pyQuote ++ "ab" ++ pyQuote] (pyQuote ++ "c" ++ pyQuote) rfl (by decide)⟩

/-! Claim C3. -/

/-- Storing a memo record makes it the one found at its own key. -/
theorem getMemoSt_set_same (st : EngineState) (s : InputStream) (n : String)
    (v : Option MemoEntry) : getMemoSt (setMemoSt st s n v) s n = v := by
  simp [getMemoSt, setMemoSt, findMemo]

/-- Unfolding one growing-loop iteration. -/
theorem growLoop_succ (fuel : Nat) (rule : Rule) (name : String)
    (oldPos sentinel : InputStream) (mv : Val) (me : Fail) (mi : InputStream)
    (st : EngineState) :
    growLoop (fuel + 1) rule name oldPos sentinel mv me mi st =
      match rule { st with input := oldPos } with
      | .err (.parse _) st' => .ok mv me { st' with input := mi }
      | .err e st' => .err e st'
      | .ok v ev st' =>
          if st'.input.sid = sentinel.sid ∧ st'.input.pos = sentinel.pos then
            .ok mv me { st' with input := mi }
          else
            growLoop fuel rule name oldPos sentinel v ev st'.input
              (setMemoSt st' oldPos name (some (.done v ev st'.input))) := rfl

/-- Once the memo at position 0 holds `Done([], end = position 2)`, every
further run of the rule `A = A 'b'* | 'a'` from position 0 reproduces exactly
that outcome: the recursive branch replays the memo (ending at 2) and the
`'b'*` tail matches zero `'b'`s there, so the rule ends at position 2
again. -/
theorem ruleA_fix (st : EngineState)
    (h : getMemoSt st lrS0 "A" = some (.done (.list []) lrEJ lrS2)) :
    ruleA 2 { st with input := lrS0 } = .ok (.list []) lrEJ { st with input := lrS2 } := by
  have hinner : applyRule 1 (ruleA 1) "A" { st with input := lrS0 } =
      .ok (.list []) lrEJ { st with input := lrS2 } := by
    have h' : getMemoSt { st with input := lrS0 }
        ({ st with input := lrS0 } : EngineState).input "A" =
        some (.done (.list []) lrEJ lrS2) := h
    unfold applyRule
    rw [h']
  have hmany : many 3 (exactly (.str "b")) { st with input := lrS2 } =
      .ok (.list []) lrEJ { st with input := lrS2 } := rfl
  have halt1 : seq2 (fun st => applyRule 1 (ruleA 1) "A" st) (many 3 (exactly (.str "b")))
      { st with input := lrS0 } = .ok (.list []) lrEJ { st with input := lrS2 } := by
    unfold seq2
    simp only [hinner]
    exact hmany
  have hrule : ruleA 2 =
      _or [seq2 (fun st => applyRule 1 (ruleA 1) "A" st) (many 3 (exactly (.str "b"))),
        exactly (.str "a")] := rfl
  rw [hrule]
  unfold _or
  rw [orAux_cons, halt1]
  rfl

/-- From any state whose memo at position 0 holds `Done([], end = 2)`, the
growing loop never terminates: each iteration succeeds, ends at position 2 —
different from the seed sentinel at position 1 — re-stores the same record
and goes around again, for every fuel supply. -/
theorem grow_fix : ∀ (fuel : Nat) (mv : Val) (me : Fail) (mi : InputStream) (st : EngineState),
    getMemoSt st lrS0 "A" = some (.done (.list []) lrEJ lrS2) →
    (growLoop fuel (ruleA 2) "A" lrS0 lrS1 mv me mi st).isFuelOut = true := by
  intro fuel
  induction fuel with
  | zero => intro mv me mi st _; rfl
  | succ k ih =>
      intro mv me mi st h
      have hstep : growLoop (k + 1) (ruleA 2) "A" lrS0 lrS1 mv me mi st =
          growLoop k (ruleA 2) "A" lrS0 lrS1 (.list []) lrEJ lrS2
            (setMemoSt { st with input := lrS2 } lrS0 "A"
              (some (.done (.list []) lrEJ lrS2))) := by
        rw [growLoop_succ, ruleA_fix st h]
        rfl
      rw [hstep]
      apply ih
      rw [getMemoSt_set_same]

/-- C3 (code bug, left-recursion seed-and-grow): the claim — and the spec's
termination guarantee — say a growth iteration that does not advance past the
previous iteration's end stops the loop, keeping the last stored entry.  The
code instead compares each iteration's end with the fixed SEED end
(`sentinel`), so for the grammar `A = A 'b'* | 'a'` on input `"ab"` — seed
`'a'` ends at 1, growth ends at 2, every further iteration ends at 2 again —
the loop never stops: for every fuel bound, the model reports fuel
exhaustion, i.e. the Python engine loops forever instead of returning the
memoized `([], end 2)` result the claim describes. -/
theorem c3_left_recursion_divergence :
    ∀ (fuel : Nat), (applyRule fuel (ruleA 2) "A" lrSt0).isFuelOut = true := by
  intro fuel
  cases fuel with
  | zero => rfl
  | succ k1 =>
      cases k1 with
      | zero => rfl
      | succ k =>
          have hseed : applyRule (k + 1 + 1) (ruleA 2) "A" lrSt0 =
              growLoop k (ruleA 2) "A" lrS0 lrS1 (.list []) lrEJ lrS2 lrStFix := rfl
          rw [hseed]
          exact grow_fix k (.list []) lrEJ lrS2 lrStFix rfl
